import Mathlib

/-!
Verification development for the thumbscore-ai repository.

The repository is a small Python service (FastAPI) that scores video
thumbnails.  Numeric code is embedded over the rationals; Python floats
become rationals, `round(x, 1)` becomes round-half-to-even on rationals,
exceptions become `Except`/`Option` values, and library calls (image
resampling, square root) become explicit function parameters constrained
by their documented contracts.
-/

namespace ThumbScore

/-! ### Python rounding

Python's builtin `round` rounds half to even (bankers' rounding).
`pyRound1 q` models `round(q, 1)`. -/

/-- Round a rational to the nearest integer, ties to even, as Python's
builtin `round` does. -/
def roundHalfEven (q : ℚ) : ℤ :=
  if q - ⌊q⌋ < 1/2 then ⌊q⌋
  else if 1/2 < q - ⌊q⌋ then ⌊q⌋ + 1
  else if 2 ∣ ⌊q⌋ then ⌊q⌋ else ⌊q⌋ + 1

/-- Model of Python `round(q, 1)`. -/
def pyRound1 (q : ℚ) : ℚ := (roundHalfEven (q * 10) : ℚ) / 10

lemma floor_le_roundHalfEven (q : ℚ) : ⌊q⌋ ≤ roundHalfEven q := by
  unfold roundHalfEven
  split_ifs <;> omega

lemma roundHalfEven_le_ceil (q : ℚ) : roundHalfEven q ≤ ⌈q⌉ := by
  unfold roundHalfEven
  split_ifs with h1 h2 h3
  · exact Int.floor_le_ceil q
  · -- here q - ⌊q⌋ > 1/2, so q is not an integer and ⌈q⌉ = ⌊q⌋ + 1
    have hq : (⌊q⌋ : ℚ) < q := by
      have := Int.floor_le q
      nlinarith
    have : ⌊q⌋ < ⌈q⌉ := by
      have h := Int.lt_ceil.mpr hq
      exact_mod_cast h
    omega
  · exact Int.floor_le_ceil q
  · -- the tie case: q - ⌊q⌋ = 1/2, so q is not an integer
    have hq : (⌊q⌋ : ℚ) < q := by
      have h12 : q - (⌊q⌋ : ℚ) = 1/2 := le_antisymm (not_lt.mp h2) (not_lt.mp h1)
      nlinarith
    have : ⌊q⌋ < ⌈q⌉ := by
      have h := Int.lt_ceil.mpr hq
      exact_mod_cast h
    omega

lemma roundHalfEven_le_of_le {q : ℚ} {n : ℤ} (h : q ≤ n) : roundHalfEven q ≤ n := by
  have h1 : roundHalfEven q ≤ ⌈q⌉ := roundHalfEven_le_ceil q
  have h2 : ⌈q⌉ ≤ n := Int.ceil_le.mpr h
  omega

lemma le_roundHalfEven_of_le {q : ℚ} {n : ℤ} (h : (n : ℚ) ≤ q) : n ≤ roundHalfEven q := by
  have h1 : n ≤ ⌊q⌋ := Int.le_floor.mpr h
  have h2 := floor_le_roundHalfEven q
  omega

lemma pyRound1_le_of_le {q c : ℚ} {n : ℤ} (hc : c = (n : ℚ) / 10) (h : q ≤ c) :
    pyRound1 q ≤ c := by
  subst hc
  have h10 : q * 10 ≤ (n : ℚ) := by linarith
  have h1 : roundHalfEven (q * 10) ≤ n := roundHalfEven_le_of_le h10
  unfold pyRound1
  have : (roundHalfEven (q * 10) : ℚ) ≤ (n : ℚ) := by exact_mod_cast h1
  linarith

lemma le_pyRound1_of_le {q c : ℚ} {n : ℤ} (hc : c = (n : ℚ) / 10) (h : c ≤ q) :
    c ≤ pyRound1 q := by
  subst hc
  have h10 : (n : ℚ) ≤ q * 10 := by linarith
  have h1 : n ≤ roundHalfEven (q * 10) := le_roundHalfEven_of_le h10
  unfold pyRound1
  have : (n : ℚ) ≤ (roundHalfEven (q * 10) : ℚ) := by exact_mod_cast h1
  linarith

/-! ### Fusion engine (src/thumbnail_analyzer.py)

`analyzeBasicFeatures` embeds `_analyze_basic_features`, taking the raw
(0 to 1 scale) image statistics as inputs: contrast is the grayscale
standard deviation over 255, saturation and brightness are channel means
over 255, clarity is the Laplacian variance over 10000; `harmony` is the
result of `_calculate_color_harmony` (already 0 to 100 scale). -/

structure BasicFeatures where
  visual_impact : ℚ
  clarity : ℚ
  contrast : ℚ
  color_harmony : ℚ
  brightness : ℚ
  saturation : ℚ
deriving DecidableEq

/-- Embedding of the four contextual values produced by
`_analyze_contextual_features` (random placeholders in the source, here
taken as parameters). -/
structure ContextualFeatures where
  composition : ℚ
  text_readability : ℚ
  emotional_appeal : ℚ
  brand_consistency : ℚ
deriving DecidableEq

/-- Embedding of `_analyze_basic_features` as a function of the raw
scalar statistics it computes from the image. -/
def analyzeBasicFeatures (contrast saturation brightness clarity harmony : ℚ) :
    BasicFeatures :=
  { visual_impact := min ((contrast * 0.3 + saturation * 0.3 + clarity * 0.4) * 100) 100
    clarity := min (clarity * 100) 100
    contrast := min (contrast * 100) 100
    color_harmony := harmony
    brightness := brightness * 100
    saturation := saturation * 100 }

/-- The weighted basic-feature aggregate inside `_calculate_final_score`. -/
def basicAvg (b : BasicFeatures) : ℚ :=
  b.visual_impact * 0.3 + b.clarity * 0.25 + b.contrast * 0.25 + b.color_harmony * 0.2

/-- The weighted contextual aggregate inside `_calculate_final_score`. -/
def contextualAvg (c : ContextualFeatures) : ℚ :=
  c.composition * 0.4 + c.text_readability * 0.3 + c.emotional_appeal * 0.3

/-- Embedding of `_calculate_final_score`: weighted fusion, upper clamp
at 100, rounded to one decimal.  No lower clamp is applied. -/
def calculateFinalScore (b : BasicFeatures) (mlScore : ℚ) (c : ContextualFeatures) : ℚ :=
  pyRound1 (min (basicAvg b * 0.4 + mlScore * 0.35 + contextualAvg c * 0.25) 100)

/-! ### Heuristic score predictor (src/score_predictor.py)

`_calculate_heuristic_score` computes a weighted sum of raw image
statistics, adds a uniform random jitter, and clamps the result into
[50, 95].  The raw statistics (contrast, mean brightness, mean gradient
magnitude, mean saturation) and the realized jitter value enter as
parameters. -/

/-- The brightness-centeredness term: peaks at mid-gray (1/2), falls off
linearly toward both extremes. -/
def brightnessScore (brightness : ℚ) : ℚ := 1 - |brightness - 1/2| * 2

/-- The weighted sum inside `_calculate_heuristic_score`, before jitter
and clamping. -/
def heuristicRaw (contrast brightness sharpness saturation : ℚ) : ℚ :=
  contrast * 25 + brightnessScore brightness * 20 + sharpness * 30 + saturation * 25

/-- Embedding of `_calculate_heuristic_score`: weighted sum plus jitter,
then `max(50, min(95, score))`. -/
def calculateHeuristicScore (contrast brightness sharpness saturation jitter : ℚ) : ℚ :=
  max 50 (min 95 (heuristicRaw contrast brightness sharpness saturation + jitter))

/-! ### Suggestion engine (src/thumbnail_analyzer.py, `_generate_suggestions`) -/

def msgContrast : String := "Aumente o contraste para melhorar a legibilidade"

def msgClarity : String := "Use uma imagem mais nítida para melhor impacto visual"

def msgHarmony : String := "Considere usar uma paleta de cores mais harmoniosa"

def msgComposition : String := "Melhore a composição seguindo a regra dos terços"

def msgText : String := "Torne o texto mais legível com melhor contraste ou tamanho"

def msgExcellent : String := "Excelente thumbnail! Pequenos ajustes podem torná-la ainda melhor"

def msgGood : String := "Boa thumbnail! Algumas melhorias podem aumentar o CTR"

def msgNeeds : String := "Esta thumbnail precisa de melhorias significativas para melhor performance"

/-- The closing remark chosen by final-score tier in `_generate_suggestions`. -/
def closingRemark (finalScore : ℚ) : String :=
  if finalScore > 85 then msgExcellent
  else if finalScore > 70 then msgGood
  else msgNeeds

/-- Embedding of `_generate_suggestions`: starts from the empty list and
appends each triggered message in the fixed source order, then appends
exactly one closing remark chosen by final-score tier. -/
def generateSuggestions (basic : BasicFeatures) (ctx : ContextualFeatures)
    (finalScore : ℚ) : List String :=
  let s0 : List String := []
  let s1 := if basic.contrast < 60 then s0 ++ [msgContrast] else s0
  let s2 := if basic.clarity < 50 then s1 ++ [msgClarity] else s1
  let s3 := if basic.color_harmony < 70 then s2 ++ [msgHarmony] else s2
  let s4 := if ctx.composition < 70 then s3 ++ [msgComposition] else s3
  let s5 := if ctx.text_readability < 75 then s4 ++ [msgText] else s4
  if finalScore > 85 then s5 ++ [msgExcellent]
  else if finalScore > 70 then s5 ++ [msgGood]
  else s5 ++ [msgNeeds]

/-- The rule part of the suggestion list, in the fixed evaluation order. -/
def ruleSuggestions (basic : BasicFeatures) (ctx : ContextualFeatures) : List String :=
  (if basic.contrast < 60 then [msgContrast] else []) ++
  (if basic.clarity < 50 then [msgClarity] else []) ++
  (if basic.color_harmony < 70 then [msgHarmony] else []) ++
  (if ctx.composition < 70 then [msgComposition] else []) ++
  (if ctx.text_readability < 75 then [msgText] else [])

/-! ### Analyzer usage state (src/thumbnail_analyzer.py)

`analyze` increments `total_analyses` and appends the final score to
`scores_history` together, after the whole pipeline has succeeded;
`get_average_score` reports 0.0 on an empty history and otherwise the
rounded mean. -/

structure AnalyzerState where
  total_analyses : ℕ
  scores_history : List ℚ
deriving DecidableEq

/-- The fresh state built in `ThumbnailAnalyzer.__init__`. -/
def initialState : AnalyzerState := ⟨0, []⟩

/-- The statistics update performed by a successful `analyze` call
(lines 52 to 54 of src/thumbnail_analyzer.py). -/
def recordAnalysis (s : AnalyzerState) (score : ℚ) : AnalyzerState :=
  ⟨s.total_analyses + 1, s.scores_history ++ [score]⟩

/-- State after a sequence of successful `analyze` calls with the given
final scores. -/
def runAnalyses (scores : List ℚ) : AnalyzerState :=
  scores.foldl recordAnalysis initialState

/-- Embedding of `get_average_score`. -/
def getAverageScore (s : AnalyzerState) : ℚ :=
  if s.scores_history = [] then 0
  else pyRound1 (s.scores_history.sum / s.scores_history.length)

/-- An `analyze` call either succeeds with a final score or raises before
reaching the statistics update. -/
inductive AnalyzeCall
  | success (score : ℚ)
  | failure
deriving DecidableEq

/-- Effect of one `analyze` call on the usage state: a failure raises
before lines 52 to 54 run, leaving the state unchanged. -/
def stepAnalyze (s : AnalyzerState) : AnalyzeCall → AnalyzerState
  | .success score => recordAnalysis s score
  | .failure => s

/-- State after a sequence of `analyze` calls, successful or failed. -/
def runCalls (calls : List AnalyzeCall) : AnalyzerState :=
  calls.foldl stepAnalyze initialState

/-- A rational is a pipeline final score when it arises from
`_calculate_final_score` on values the pipeline can actually supply:
nonnegative basic features, a nonnegative ml score, and contextual
placeholders drawn from uniform(60,95), uniform(70,90), uniform(65,85). -/
def PipelineScore (q : ℚ) : Prop :=
  ∃ b : BasicFeatures, ∃ ml : ℚ, ∃ ctx : ContextualFeatures,
    0 ≤ b.visual_impact ∧ 0 ≤ b.clarity ∧ 0 ≤ b.contrast ∧ 0 ≤ b.color_harmony ∧
    0 ≤ ml ∧ 60 ≤ ctx.composition ∧ 70 ≤ ctx.text_readability ∧
    65 ≤ ctx.emotional_appeal ∧ q = calculateFinalScore b ml ctx

/-! ### HTTP endpoints (src/main.py) and configuration (src/config.py) -/

/-- MAX_IMAGE_SIZE from src/config.py (5MB). -/
def MAX_IMAGE_SIZE : ℕ := 1024 * 1024 * 5

/-- ALLOWED_IMAGE_TYPES from src/config.py. -/
def ALLOWED_IMAGE_TYPES : List String := ["image/jpeg", "image/png", "image/webp"]

/-- An uploaded file: its declared content type, its byte size, and what
`thumbnail_analyzer.analyze` would return on its contents (`none` models
`analyze` raising, for example on undecodable bytes). -/
structure UploadFile where
  contentType : String
  size : ℕ
  analyzeOutcome : Option ℚ
deriving DecidableEq

/-- Model of Python `str.startswith` via character lists (the source
checks `file.content_type.startswith('image/')`). -/
def contentTypeIsImage (f : UploadFile) : Bool :=
  "image/".data.isPrefixOf f.contentType.data

inductive EndpointOutcome
  | success (score : ℚ)
  | serverError
deriving DecidableEq

/-- Embedding of the `/analyze` route.  The only validation is the
content-type prefix check; note that the `HTTPException(400)` it raises
is itself caught by the surrounding `except Exception` and re-raised as
a 500, so every failure surfaces as `serverError`.  No size check and no
lookup in ALLOWED_IMAGE_TYPES happens anywhere on this path. -/
def analyzeEndpoint (f : UploadFile) : EndpointOutcome :=
  if contentTypeIsImage f then
    match f.analyzeOutcome with
    | some score => .success score
    | none => .serverError
  else .serverError

/-- The loop body of the `/batch-analyze` route: non-image entries are
skipped with `continue`; for image entries `analyze` is awaited with no
per-item handler, so a raise propagates out of the loop (modelled by
`Except.error`), where the route handler turns it into a 500. -/
def batchLoop : List UploadFile → List ℚ → Except Unit (List ℚ)
  | [], acc => .ok acc.reverse
  | f :: fs, acc =>
    if contentTypeIsImage f then
      match f.analyzeOutcome with
      | some score => batchLoop fs (score :: acc)
      | none => .error ()
    else batchLoop fs acc

/-- Embedding of the `/batch-analyze` route: either the list of results
of the successfully analyzed image files, or a 500 error. -/
def batchAnalyze (files : List UploadFile) : Except Unit (List ℚ) :=
  batchLoop files []

/-! ### Claims C1 and C2 -/

/-- C1: the final score equals
round(min(0.4·basic_aggregate + 0.35·ml_score + 0.25·contextual_aggregate, 100), 1)
with basic_aggregate = 0.3·visual_impact + 0.25·clarity + 0.25·contrast +
0.2·color_harmony and visual_impact = 0.3·contrast + 0.3·saturation +
0.4·clarity (double counting and nesting preserved, all feature inputs on
the 0 to 100 scale); the result is capped above at 100, and no lower clamp
is applied, so pathological inputs can drive it negative. -/
theorem c1_final_score_formula :
    (∀ c s b cl h ml : ℚ, ∀ ctx : ContextualFeatures,
      0 ≤ c → c ≤ 1 → 0 ≤ s → s ≤ 1 → 0 ≤ cl → cl ≤ 1 →
      calculateFinalScore (analyzeBasicFeatures c s b cl h) ml ctx =
        pyRound1 (min
          (0.4 * (0.3 * (0.3 * (c * 100) + 0.3 * (s * 100) + 0.4 * (cl * 100)) +
              0.25 * (cl * 100) + 0.25 * (c * 100) + 0.2 * h) +
            0.35 * ml +
            0.25 * (0.4 * ctx.composition + 0.3 * ctx.text_readability +
              0.3 * ctx.emotional_appeal)) 100)) ∧
    (∀ b : BasicFeatures, ∀ ml : ℚ, ∀ ctx : ContextualFeatures,
      calculateFinalScore b ml ctx ≤ 100) ∧
    (∃ b : BasicFeatures, ∃ ml : ℚ, ∃ ctx : ContextualFeatures,
      calculateFinalScore b ml ctx < 0) := by
  refine ⟨?_, ?_, ?_⟩
  · intro c s b cl h ml ctx hc0 hc1 hs0 hs1 hcl0 hcl1
    have hvi : (c * 0.3 + s * 0.3 + cl * 0.4) * 100 ≤ 100 := by nlinarith
    have hclm : cl * 100 ≤ 100 := by nlinarith
    have hcm : c * 100 ≤ 100 := by nlinarith
    unfold calculateFinalScore basicAvg contextualAvg analyzeBasicFeatures
    simp only [min_eq_left hvi, min_eq_left hclm, min_eq_left hcm]
    congr 1
    congr 1
    ring
  · intro b ml ctx
    unfold calculateFinalScore
    exact pyRound1_le_of_le (n := 1000) (by norm_num) (min_le_right _ _)
  · refine ⟨⟨0, 0, 0, 0, 0, 0⟩, 0, ⟨-1000, -1000, -1000, 0⟩, ?_⟩
    have harg : basicAvg ⟨0, 0, 0, 0, 0, 0⟩ * 0.4 + (0 : ℚ) * 0.35 +
        contextualAvg ⟨-1000, -1000, -1000, 0⟩ * 0.25 = -250 := by
      unfold basicAvg contextualAvg
      norm_num
    unfold calculateFinalScore
    rw [harg]
    have hmin : min (-250 : ℚ) 100 = -250 := by norm_num
    rw [hmin]
    norm_num [pyRound1, roundHalfEven]

/-- Witness for C1: the formula identity instantiated at concrete raw
statistics contrast 1/2, saturation 1/2, brightness 2/5, clarity 1/2,
harmony 50, ml score 70 and contextual values (70, 80, 70, 80). -/
theorem c1_final_score_formula_witness :
    calculateFinalScore (analyzeBasicFeatures (1/2) (1/2) (2/5) (1/2) 50) 70
        ⟨70, 80, 70, 80⟩ =
      pyRound1 (min
        (0.4 * (0.3 * (0.3 * ((1/2 : ℚ) * 100) + 0.3 * ((1/2 : ℚ) * 100) +
            0.4 * ((1/2 : ℚ) * 100)) +
            0.25 * ((1/2 : ℚ) * 100) + 0.25 * ((1/2 : ℚ) * 100) + 0.2 * 50) +
          0.35 * 70 +
          0.25 * (0.4 * (70 : ℚ) + 0.3 * 80 + 0.3 * 70)) 100) :=
  c1_final_score_formula.1 (1/2) (1/2) (2/5) (1/2) 50 70 ⟨70, 80, 70, 80⟩
    (by norm_num) (by norm_num) (by norm_num) (by norm_num) (by norm_num) (by norm_num)

/-- C2: the heuristic predictor output lies in [50, 95] for every input
and every jitter value (in particular for every jitter in [-5, 5], and for
jitter 0, where the clamp applies to the bare weighted sum of contrast x25,
brightness-centeredness x20, gradient sharpness x30 and saturation x25). -/
theorem c2_heuristic_score_range :
    (∀ contrast brightness sharpness saturation jitter : ℚ,
      50 ≤ calculateHeuristicScore contrast brightness sharpness saturation jitter ∧
      calculateHeuristicScore contrast brightness sharpness saturation jitter ≤ 95) ∧
    (∀ contrast brightness sharpness saturation : ℚ,
      calculateHeuristicScore contrast brightness sharpness saturation 0 =
        max 50 (min 95 (heuristicRaw contrast brightness sharpness saturation))) := by
  constructor
  · intro c b s sat j
    unfold calculateHeuristicScore
    constructor
    · exact le_max_left _ _
    · exact max_le (by norm_num) (min_le_left _ _)
  · intro c b s sat
    unfold calculateHeuristicScore
    rw [add_zero]

/-! ### Claim C7 -/

/-- C7: the suggestion list is a deterministic function of the feature
inputs, equal to the concatenation, in fixed order, of the messages of
the five independent non-exclusive rules (contrast<60, clarity<50,
color_harmony<70, composition<70, text_readability<75) followed by
exactly one closing remark chosen by final-score tier (>85 excellent,
>70 good, otherwise needs-significant-improvement): the closing remark
is always the last element, each rule message appears iff its trigger
holds, and no rule message coincides with a closing remark. -/
lemma mem_ite_single {c : Prop} [Decidable c] {x m : String} :
    m ∈ (if c then [x] else ([] : List String)) ↔ c ∧ m = x := by
  split_ifs with h <;> simp [h]

set_option maxHeartbeats 1000000 in
lemma generateSuggestions_flat (b : BasicFeatures) (ctx : ContextualFeatures) (f : ℚ) :
    generateSuggestions b ctx f = ruleSuggestions b ctx ++ [closingRemark f] := by
  simp only [generateSuggestions, ruleSuggestions, closingRemark]
  split_ifs <;> simp

lemma closingRemark_cases (f : ℚ) :
    closingRemark f = msgExcellent ∨ closingRemark f = msgGood ∨
      closingRemark f = msgNeeds := by
  unfold closingRemark
  split_ifs <;> simp

lemma ruleSuggestions_msgs (b : BasicFeatures) (ctx : ContextualFeatures) :
    ∀ m ∈ ruleSuggestions b ctx, m = msgContrast ∨ m = msgClarity ∨ m = msgHarmony ∨
      m = msgComposition ∨ m = msgText := by
  intro m hm
  simp only [ruleSuggestions, List.mem_append, mem_ite_single] at hm
  tauto

lemma five_rule_msgs_ne_closing :
    ∀ x ∈ [msgContrast, msgClarity, msgHarmony, msgComposition, msgText],
      x ≠ msgExcellent ∧ x ≠ msgGood ∧ x ≠ msgNeeds := by
  simp [msgContrast, msgClarity, msgHarmony, msgComposition, msgText,
    msgExcellent, msgGood, msgNeeds]

lemma mem_generateSuggestions (b : BasicFeatures) (ctx : ContextualFeatures) (f : ℚ)
    (m : String) :
    m ∈ generateSuggestions b ctx f ↔
      (b.contrast < 60 ∧ m = msgContrast) ∨ (b.clarity < 50 ∧ m = msgClarity) ∨
      (b.color_harmony < 70 ∧ m = msgHarmony) ∨
      (ctx.composition < 70 ∧ m = msgComposition) ∨
      (ctx.text_readability < 75 ∧ m = msgText) ∨ m = closingRemark f := by
  rw [generateSuggestions_flat]
  simp only [List.mem_append, List.mem_singleton, ruleSuggestions, mem_ite_single]
  tauto

theorem c7_suggestion_rules :
    (∀ b : BasicFeatures, ∀ ctx : ContextualFeatures, ∀ f : ℚ,
      generateSuggestions b ctx f = ruleSuggestions b ctx ++ [closingRemark f]) ∧
    (∀ f : ℚ, closingRemark f =
      if f > 85 then msgExcellent else if f > 70 then msgGood else msgNeeds) ∧
    (∀ b : BasicFeatures, ∀ ctx : ContextualFeatures, ∀ f : ℚ,
      (generateSuggestions b ctx f).getLast? = some (closingRemark f)) ∧
    (∀ b : BasicFeatures, ∀ ctx : ContextualFeatures, ∀ f : ℚ,
      (msgContrast ∈ generateSuggestions b ctx f ↔ b.contrast < 60) ∧
      (msgClarity ∈ generateSuggestions b ctx f ↔ b.clarity < 50) ∧
      (msgHarmony ∈ generateSuggestions b ctx f ↔ b.color_harmony < 70) ∧
      (msgComposition ∈ generateSuggestions b ctx f ↔ ctx.composition < 70) ∧
      (msgText ∈ generateSuggestions b ctx f ↔ ctx.text_readability < 75)) ∧
    (∀ b : BasicFeatures, ∀ ctx : ContextualFeatures,
      ∀ m ∈ ruleSuggestions b ctx, m ≠ msgExcellent ∧ m ≠ msgGood ∧ m ≠ msgNeeds) := by
  refine ⟨generateSuggestions_flat, fun f => rfl, ?_, ?_, ?_⟩
  · intro b ctx f
    rw [generateSuggestions_flat, List.getLast?_concat]
  · intro b ctx f
    refine ⟨?_, ?_, ?_, ?_, ?_⟩ <;>
      · rw [mem_generateSuggestions]
        rcases closingRemark_cases f with h | h | h <;> rw [h] <;>
          simp [msgContrast, msgClarity, msgHarmony, msgComposition, msgText,
            msgExcellent, msgGood, msgNeeds]
  · intro b ctx m hm
    rcases ruleSuggestions_msgs b ctx m hm with rfl | rfl | rfl | rfl | rfl <;>
      exact five_rule_msgs_ne_closing _ (by simp)

/-- Witness for C7: the rule-part conjunct applied at a concrete feature
vector that triggers every rule, at the message it appends first. -/
theorem c7_suggestion_rules_witness :
    msgContrast ≠ msgExcellent ∧ msgContrast ≠ msgGood ∧ msgContrast ≠ msgNeeds :=
  c7_suggestion_rules.2.2.2.2 ⟨0, 0, 0, 0, 0, 0⟩ ⟨0, 0, 0, 0⟩ msgContrast
    (by simp [ruleSuggestions])

/-! ### Claims C8 and C10 -/

/-- The final score carried by an `analyze` call, if it succeeded. -/
def callScore : AnalyzeCall → Option ℚ
  | .success q => some q
  | .failure => none

lemma foldl_recordAnalysis (scores : List ℚ) (s : AnalyzerState) :
    (scores.foldl recordAnalysis s).total_analyses = s.total_analyses + scores.length ∧
    (scores.foldl recordAnalysis s).scores_history = s.scores_history ++ scores := by
  induction scores generalizing s with
  | nil => simp
  | cons q qs ih =>
    have h := ih (recordAnalysis s q)
    simp only [List.foldl_cons]
    refine ⟨?_, ?_⟩
    · rw [h.1]
      simp [recordAnalysis]
      omega
    · rw [h.2]
      simp [recordAnalysis]

lemma foldl_stepAnalyze (calls : List AnalyzeCall) (s : AnalyzerState) :
    (calls.foldl stepAnalyze s).total_analyses =
      s.total_analyses + (calls.filterMap callScore).length ∧
    (calls.foldl stepAnalyze s).scores_history =
      s.scores_history ++ calls.filterMap callScore := by
  induction calls generalizing s with
  | nil => simp
  | cons c cs ih =>
    cases c with
    | success q =>
      have h := ih (recordAnalysis s q)
      simp only [List.foldl_cons, stepAnalyze]
      refine ⟨?_, ?_⟩
      · rw [h.1]
        simp [recordAnalysis, callScore]
        omega
      · rw [h.2]
        simp [recordAnalysis, callScore]
    | failure =>
      have h := ih s
      simp only [List.foldl_cons, stepAnalyze]
      refine ⟨?_, ?_⟩
      · rw [h.1]
        simp [callScore]
      · rw [h.2]
        simp [callScore]

lemma le_sum_of_forall_le (l : List ℚ) (a : ℚ) (h : ∀ x ∈ l, a ≤ x) :
    a * l.length ≤ l.sum := by
  induction l with
  | nil => simp
  | cons x xs ih =>
    have hx : a ≤ x := h x (by simp)
    have hxs : a * xs.length ≤ xs.sum := ih (fun y hy => h y (by simp [hy]))
    simp only [List.sum_cons, List.length_cons]
    push_cast
    nlinarith

lemma pipelineScore_ge (q : ℚ) (h : PipelineScore q) : 16 ≤ q := by
  obtain ⟨b, ml, ctx, hvi, hcl, hct, hch, hml, hco, htr, hea, rfl⟩ := h
  unfold calculateFinalScore
  refine le_pyRound1_of_le (n := 160) (by norm_num) ?_
  refine le_min ?_ (by norm_num)
  unfold basicAvg contextualAvg
  nlinarith

/-- C8, corrected: each successful `analyze` call increments
`total_analyses` by exactly one and appends the final score to the
history, and after any nonempty sequence of successful calls the
reported average equals the arithmetic mean of the recorded scores
rounded to one decimal (Python `round(·, 1)`), which is how it can
differ from the exact mean. -/
theorem c8_average_score :
    (∀ s : AnalyzerState, ∀ q : ℚ,
      (recordAnalysis s q).total_analyses = s.total_analyses + 1 ∧
      (recordAnalysis s q).scores_history = s.scores_history ++ [q]) ∧
    (∀ scores : List ℚ, scores ≠ [] →
      (runAnalyses scores).total_analyses = scores.length ∧
      getAverageScore (runAnalyses scores) =
        pyRound1 (scores.sum / (scores.length : ℚ))) := by
  constructor
  · intro s q
    exact ⟨rfl, rfl⟩
  · intro scores hne
    have h := foldl_recordAnalysis scores initialState
    have htot : (runAnalyses scores).total_analyses = scores.length := by
      unfold runAnalyses
      rw [h.1]
      simp [initialState]
    have hhist : (runAnalyses scores).scores_history = scores := by
      unfold runAnalyses
      rw [h.2]
      simp [initialState]
    refine ⟨htot, ?_⟩
    unfold getAverageScore
    rw [hhist, if_neg hne]

/-- Counterexample for C8: after three successful calls with final
scores 33.5, 33.5 and 33.6, `get_average_score` reports 33.5, but the
arithmetic mean of the recorded scores is 503/15 = 33.5333... -/
theorem c8_average_score_counterexample :
    getAverageScore (runAnalyses [67/2, 67/2, 168/5]) = 67/2 ∧
    ((67/2 : ℚ) + 67/2 + 168/5) / 3 = 503/15 ∧
    getAverageScore (runAnalyses [67/2, 67/2, 168/5]) ≠
      ((67/2 : ℚ) + 67/2 + 168/5) / 3 := by
  have hval : getAverageScore (runAnalyses [67/2, 67/2, 168/5]) = 67/2 := by
    have h1 : runAnalyses [67/2, 67/2, 168/5] =
        ⟨3, [67/2, 67/2, 168/5]⟩ := by
      simp [runAnalyses, initialState, recordAnalysis]
    rw [h1]
    unfold getAverageScore
    rw [if_neg (by simp)]
    norm_num [pyRound1, roundHalfEven]
  refine ⟨hval, by norm_num, ?_⟩
  rw [hval]
  norm_num

/-- Witness for C8: the corrected statement applied to the single-call
history with final score 80. -/
theorem c8_average_score_witness :
    (runAnalyses [(80 : ℚ)]).total_analyses = 1 ∧
    getAverageScore (runAnalyses [(80 : ℚ)]) =
      pyRound1 (List.sum [(80 : ℚ)] / ((List.length [(80 : ℚ)]) : ℚ)) := by
  have h := c8_average_score.2 [(80 : ℚ)] (by simp)
  simpa using h

/-- C10: between analysis calls `total_analyses` always equals the
length of `scores_history`; a failed call leaves the state unchanged
(the increment and the append only run after the whole pipeline
succeeded); and, when every recorded score actually comes from the
scoring pipeline, `get_average_score` returns 0.0 exactly when
`total_analyses` is 0. -/
theorem c10_usage_state_invariant :
    (∀ calls : List AnalyzeCall,
      (runCalls calls).total_analyses = (runCalls calls).scores_history.length) ∧
    (∀ s : AnalyzerState, stepAnalyze s AnalyzeCall.failure = s) ∧
    (∀ calls : List AnalyzeCall,
      (∀ q : ℚ, AnalyzeCall.success q ∈ calls → PipelineScore q) →
      (getAverageScore (runCalls calls) = 0 ↔
        (runCalls calls).total_analyses = 0)) := by
  have hkey : ∀ calls : List AnalyzeCall,
      (runCalls calls).total_analyses = (calls.filterMap callScore).length ∧
      (runCalls calls).scores_history = calls.filterMap callScore := by
    intro calls
    have h := foldl_stepAnalyze calls initialState
    unfold runCalls
    constructor
    · rw [h.1]; simp [initialState]
    · rw [h.2]; simp [initialState]
  refine ⟨?_, ?_, ?_⟩
  · intro calls
    rw [(hkey calls).1, (hkey calls).2]
  · intro s
    rfl
  · intro calls hpipe
    constructor
    · intro havg
      by_contra htot
      have hlen : (calls.filterMap callScore).length ≠ 0 := by
        rw [← (hkey calls).1]
        exact htot
      have hne : (runCalls calls).scores_history ≠ [] := by
        rw [(hkey calls).2]
        intro hcontra
        rw [hcontra] at hlen
        simp at hlen
      have hmem : ∀ x ∈ (runCalls calls).scores_history, (16 : ℚ) ≤ x := by
        intro x hx
        rw [(hkey calls).2] at hx
        rw [List.mem_filterMap] at hx
        obtain ⟨c, hc, hcs⟩ := hx
        cases c with
        | success q =>
          have hq : q = x := by simpa [callScore] using hcs
          exact pipelineScore_ge x (hq ▸ hpipe q hc)
        | failure => simp [callScore] at hcs
      have hlenpos : (0 : ℚ) < (runCalls calls).scores_history.length := by
        have hne0 : (runCalls calls).scores_history.length ≠ 0 := by
          rw [(hkey calls).2]
          exact hlen
        exact_mod_cast Nat.pos_of_ne_zero hne0
      have hsum : (16 : ℚ) * (runCalls calls).scores_history.length ≤
          (runCalls calls).scores_history.sum :=
        le_sum_of_forall_le _ _ hmem
      have hdiv : (16 : ℚ) ≤ (runCalls calls).scores_history.sum /
          (runCalls calls).scores_history.length := by
        rw [le_div_iff₀ hlenpos]
        linarith
      have h16 : (16 : ℚ) ≤ getAverageScore (runCalls calls) := by
        unfold getAverageScore
        rw [if_neg hne]
        exact le_pyRound1_of_le (n := 160) (by norm_num) hdiv
      rw [havg] at h16
      norm_num at h16
    · intro htot
      have hlen : (runCalls calls).scores_history.length = 0 := by
        rw [(hkey calls).2]
        rw [(hkey calls).1] at htot
        exact htot
      have hne : (runCalls calls).scores_history = [] :=
        List.eq_nil_of_length_eq_zero hlen
      unfold getAverageScore
      rw [if_pos hne]

/-- Witness for C10: the average-iff-zero conjunct at the one-call
sequence consisting of a single failed analysis. -/
theorem c10_usage_state_invariant_witness :
    getAverageScore (runCalls [AnalyzeCall.failure]) = 0 ↔
      (runCalls [AnalyzeCall.failure]).total_analyses = 0 :=
  c10_usage_state_invariant.2.2 [AnalyzeCall.failure]
    (by intro q hq; simp at hq)

/-! ### Claim C3 -/

/-- The entry recorded for a file by the batch loop: `some` result for an
image file, `none` for a skipped non-image file. -/
def batchEntry (f : UploadFile) : Option ℚ :=
  if contentTypeIsImage f then f.analyzeOutcome else none

lemma batchLoop_ok (files : List UploadFile) (acc : List ℚ)
    (h : ∀ f ∈ files, contentTypeIsImage f = true → f.analyzeOutcome.isSome) :
    batchLoop files acc = .ok (acc.reverse ++ files.filterMap batchEntry) := by
  induction files generalizing acc with
  | nil => simp [batchLoop]
  | cons f fs ih =>
    by_cases hf : contentTypeIsImage f
    · have hsome := h f (by simp) hf
      match hval : f.analyzeOutcome with
      | some r =>
        have ihr := ih (r :: acc) (fun g hg => h g (by simp [hg]))
        simp only [batchLoop, hf, if_true, hval]
        rw [ihr]
        simp [batchEntry, hf, hval]
      | none =>
        rw [hval] at hsome
        simp at hsome
    · have hfB : contentTypeIsImage f = false := by
        simpa using hf
      have ihr := ih acc (fun g hg => h g (by simp [hg]))
      simp only [batchLoop, hfB, Bool.false_eq_true, if_false]
      rw [ihr]
      simp [batchEntry, hfB]

lemma batchLoop_error (pre : List UploadFile) (f : UploadFile)
    (post : List UploadFile) (acc : List ℚ)
    (hpre : ∀ g ∈ pre, contentTypeIsImage g = true → g.analyzeOutcome.isSome)
    (hf : contentTypeIsImage f = true) (hnone : f.analyzeOutcome = none) :
    batchLoop (pre ++ f :: post) acc = .error () := by
  induction pre generalizing acc with
  | nil => simp [batchLoop, hf, hnone]
  | cons g gs ih =>
    by_cases hg : contentTypeIsImage g
    · have hsome := hpre g (by simp) hg
      match hval : g.analyzeOutcome with
      | some r =>
        simp only [List.cons_append, batchLoop, hg, if_true, hval]
        exact ih (r :: acc) (fun x hx => hpre x (by simp [hx]))
      | none =>
        rw [hval] at hsome
        simp at hsome
    · have hgB : contentTypeIsImage g = false := by
        simpa using hg
      simp only [List.cons_append, batchLoop, hgB, Bool.false_eq_true, if_false]
      exact ih acc (fun x hx => hpre x (by simp [hx]))

lemma batchEntry_length (files : List UploadFile)
    (h : ∀ f ∈ files, contentTypeIsImage f = true → f.analyzeOutcome.isSome) :
    (files.filterMap batchEntry).length =
      (files.filter (fun f => contentTypeIsImage f)).length := by
  induction files with
  | nil => simp
  | cons f fs ih =>
    have ihr := ih (fun g hg => h g (by simp [hg]))
    by_cases hf : contentTypeIsImage f
    · have hsome := h f (by simp) hf
      match hval : f.analyzeOutcome with
      | some r => simp [batchEntry, hf, hval, ihr]
      | none =>
        rw [hval] at hsome
        simp at hsome
    · have hfB : contentTypeIsImage f = false := by
        simpa using hf
      simp [batchEntry, hfB, ihr]

/-- C3, corrected: in batch analysis only non-image entries are silently
skipped.  When every image entry analyzes successfully the route returns
the in-order list of their results and `total_analyzed` equals the number
of image files; but an analysis failure on an image entry is NOT caught
per item: it aborts the whole batch request with a 500 error. -/
theorem c3_batch_analysis :
    (∀ files : List UploadFile,
      (∀ f ∈ files, contentTypeIsImage f = true → f.analyzeOutcome.isSome) →
      batchAnalyze files = .ok (files.filterMap batchEntry) ∧
      (files.filterMap batchEntry).length =
        (files.filter (fun f => contentTypeIsImage f)).length) ∧
    (∀ pre : List UploadFile, ∀ f : UploadFile, ∀ post : List UploadFile,
      (∀ g ∈ pre, contentTypeIsImage g = true → g.analyzeOutcome.isSome) →
      contentTypeIsImage f = true → f.analyzeOutcome = none →
      batchAnalyze (pre ++ f :: post) = .error ()) := by
  constructor
  · intro files h
    constructor
    · unfold batchAnalyze
      rw [batchLoop_ok files [] h]
      simp
    · exact batchEntry_length files h
  · intro pre f post hpre hf hnone
    exact batchLoop_error pre f post [] hpre hf hnone

/-- Counterexample for C3: a batch of three image files whose second
entry fails to analyze makes the whole request fail with a 500 error
instead of skipping the failing item. -/
theorem c3_batch_analysis_counterexample :
    batchAnalyze [⟨"image/png", 100, some 80⟩, ⟨"image/png", 100, none⟩,
      ⟨"image/png", 100, some 90⟩] = .error () := by
  rfl

/-- Witness for C3: the abort conjunct at the concrete three-file batch
of the counterexample. -/
theorem c3_batch_analysis_witness :
    batchAnalyze ([⟨"image/png", 100, some 80⟩] ++ ⟨"image/png", 100, none⟩ ::
      [⟨"image/png", 100, some 90⟩]) = .error () :=
  c3_batch_analysis.2 [⟨"image/png", 100, some 80⟩] ⟨"image/png", 100, none⟩
    [⟨"image/png", 100, some 90⟩]
    (by intro g hg hgi; simp at hg; rw [hg]; rfl) (by rfl) rfl

/-! ### Claim C5 -/

/-- An exception raised inside a feature computation body. -/
inductive FeatureExc
  | failure
deriving DecidableEq

/-- Result record of `ImageProcessor.analyze_composition` (the success
path also carries the 9 cell variances, which the defaults omit; only the
three defaulted fields are modelled). -/
structure CompositionResult where
  composition_score : ℚ
  center_interest : ℚ
  rule_of_thirds_adherence : ℚ
deriving DecidableEq

/-- Embedding of the try/except structure of
`ImageProcessor.extract_features`: the body is a fallible computation of
the feature mapping; any exception is caught and the empty mapping
returned. -/
def extractFeatures (body : Except FeatureExc (List (String × ℚ))) :
    List (String × ℚ) :=
  match body with
  | .ok fs => fs
  | .error _ => []

/-- Embedding of the try/except structure of
`ImageProcessor.analyze_composition`: any exception in the body is caught
and the documented defaults returned. -/
def analyzeComposition (body : Except FeatureExc CompositionResult) :
    CompositionResult :=
  match body with
  | .ok r => r
  | .error _ => ⟨1, 0, 1/2⟩

/-- Embedding of `_analyze_basic_features` including the call to
`_calculate_color_harmony`, which has NO try/except anywhere around it in
src/thumbnail_analyzer.py: a failing harmony computation propagates out
of the basic-feature analysis. -/
def analyzeBasicFeaturesE (contrast saturation brightness clarity : ℚ)
    (harmonyResult : Except FeatureExc ℚ) : Except FeatureExc BasicFeatures :=
  match harmonyResult with
  | .error e => .error e
  | .ok h => .ok (analyzeBasicFeatures contrast saturation brightness clarity h)

/-- C5, corrected: failures inside the statistical feature extraction and
the composition analysis are caught locally (empty mapping, and the
composition defaults 1.0 / 0.0 / 0.5 respectively), but a failure of the
color-harmony computation is not caught and propagates out of the
basic-feature analysis to the caller. -/
theorem c5_feature_error_recovery :
    (∀ e : FeatureExc, extractFeatures (Except.error e) = []) ∧
    (∀ fs : List (String × ℚ), extractFeatures (Except.ok fs) = fs) ∧
    (∀ e : FeatureExc, analyzeComposition (Except.error e) = ⟨1, 0, 1/2⟩) ∧
    (∀ r : CompositionResult, analyzeComposition (Except.ok r) = r) ∧
    (∀ c s b cl : ℚ, ∀ e : FeatureExc,
      analyzeBasicFeaturesE c s b cl (Except.error e) = Except.error e) :=
  ⟨fun _ => rfl, fun _ => rfl, fun _ => rfl, fun _ => rfl,
    fun _ _ _ _ _ => rfl⟩

/-- Counterexample for C5: a failing color-harmony computation makes the
whole basic-feature analysis fail instead of being recovered locally. -/
theorem c5_feature_error_recovery_counterexample :
    analyzeBasicFeaturesE (1/2) (1/2) (2/5) (1/2)
        (Except.error FeatureExc.failure) =
      Except.error FeatureExc.failure := rfl

/-! ### Claim C6 -/

/-- C6, evaluated on the code: a 6MB upload of content type image/gif
exceeds MAX_IMAGE_SIZE and is not in ALLOWED_IMAGE_TYPES, yet the
`/analyze` route accepts it and analyzes it, because the route checks
only that the content type starts with image/ and never consults the
configured size or type limits. -/
theorem c6_size_type_limits_unenforced :
    analyzeEndpoint ⟨"image/gif", 6 * 1024 * 1024, some 80⟩ =
      EndpointOutcome.success 80 ∧
    MAX_IMAGE_SIZE < 6 * 1024 * 1024 ∧
    "image/gif" ∉ ALLOWED_IMAGE_TYPES ∧
    analyzeEndpoint ⟨"text/plain", 10, some 80⟩ = EndpointOutcome.serverError := by
  refine ⟨rfl, by norm_num [MAX_IMAGE_SIZE], by decide, rfl⟩

/-! ### Image preprocessor (src/image_processor.py) and claim C4

Images are embedded as dimensions plus a pixel function returning 8-bit
RGB triples.  The PIL resampling call (`Image.resize` with LANCZOS) is a
library call and enters as a function parameter constrained by its
contract: it returns an image of exactly the requested dimensions whose
pixels are valid 8-bit values. -/

structure PILImage where
  width : ℕ
  height : ℕ
  px : ℕ → ℕ → ℕ × ℕ × ℕ

/-- All in-range pixels are valid 8-bit RGB triples. -/
def PILImage.validPixels (im : PILImage) : Prop :=
  ∀ i j, i < im.height → j < im.width →
    (im.px i j).1 ≤ 255 ∧ (im.px i j).2.1 ≤ 255 ∧ (im.px i j).2.2 ≤ 255

/-- Contract of the PIL resize call: output has the requested dimensions
and valid 8-bit pixels. -/
def ResampleSpec (resample : PILImage → ℕ → ℕ → PILImage) : Prop :=
  ∀ im nw nh, (resample im nw nh).width = nw ∧ (resample im nw nh).height = nh ∧
    (resample im nw nh).validPixels

/-- The aspect-preserving scale factor
`min(target_w / width, target_h / height)` from `_resize_with_padding`. -/
def letterboxScale (targetW targetH : ℕ) (im : PILImage) : ℚ :=
  min ((targetW : ℚ) / (im.width : ℚ)) ((targetH : ℚ) / (im.height : ℚ))

/-- `new_width = int(width * scale)` (Python `int()` truncates; the value
is nonnegative here, so truncation is the floor). -/
def scaledW (targetW targetH : ℕ) (im : PILImage) : ℕ :=
  (⌊(im.width : ℚ) * letterboxScale targetW targetH im⌋).toNat

/-- `new_height = int(height * scale)`. -/
def scaledH (targetW targetH : ℕ) (im : PILImage) : ℕ :=
  (⌊(im.height : ℚ) * letterboxScale targetW targetH im⌋).toNat

/-- The horizontal paste offset `x = (target_width - new_width) // 2`. -/
def padX (targetW targetH : ℕ) (im : PILImage) : ℕ :=
  (targetW - scaledW targetW targetH im) / 2

/-- The vertical paste offset `y = (target_height - new_height) // 2`. -/
def padY (targetW targetH : ℕ) (im : PILImage) : ℕ :=
  (targetH - scaledH targetW targetH im) / 2

/-- Embedding of `_resize_with_padding`: compute the aspect-preserving
scale `min(target_w/w, target_h/h)`, truncate the scaled dimensions to
integers as Python `int()` does, resample, and paste centered onto a
zero-filled (black) canvas of the target size. -/
def resizeWithPadding (resample : PILImage → ℕ → ℕ → PILImage)
    (targetW targetH : ℕ) (im : PILImage) : PILImage :=
  { width := targetW
    height := targetH
    px := fun i j =>
      if padX targetW targetH im ≤ j ∧
          j < padX targetW targetH im +
            (resample im (scaledW targetW targetH im) (scaledH targetW targetH im)).width ∧
          padY targetW targetH im ≤ i ∧
          i < padY targetW targetH im +
            (resample im (scaledW targetW targetH im) (scaledH targetW targetH im)).height
      then (resample im (scaledW targetW targetH im) (scaledH targetW targetH im)).px
        (i - padY targetW targetH im) (j - padX targetW targetH im)
      else (0, 0, 0) }

/-- The normalized floating-point array produced by `preprocess`. -/
structure NormImage where
  width : ℕ
  height : ℕ
  px : ℕ → ℕ → ℚ × ℚ × ℚ

/-- Embedding of `ImageProcessor.preprocess`: letterbox to the target
size, then scale every 8-bit sample into the unit interval by dividing
by 255. -/
def preprocess (resample : PILImage → ℕ → ℕ → PILImage) (targetW targetH : ℕ)
    (im : PILImage) : NormImage :=
  let padded := resizeWithPadding resample targetW targetH im
  { width := padded.width
    height := padded.height
    px := fun i j =>
      (((padded.px i j).1 : ℚ) / 255, ((padded.px i j).2.1 : ℚ) / 255,
        ((padded.px i j).2.2 : ℚ) / 255) }

/-- C4: for every decodable input image (positive dimensions, any
contents) and every resampler satisfying the PIL contract, the
preprocessed array has exactly the configured target shape (default
224 x 224, three channels per pixel by construction) and every sample
lies in [0, 1]. -/
theorem c4_preprocess_shape_and_range :
    ∀ resample : PILImage → ℕ → ℕ → PILImage, ∀ targetW targetH : ℕ,
    ∀ im : PILImage, ResampleSpec resample → 0 < im.width → 0 < im.height →
      (preprocess resample targetW targetH im).width = targetW ∧
      (preprocess resample targetW targetH im).height = targetH ∧
      ∀ i j, i < targetH → j < targetW →
        (0 ≤ ((preprocess resample targetW targetH im).px i j).1 ∧
          ((preprocess resample targetW targetH im).px i j).1 ≤ 1) ∧
        (0 ≤ ((preprocess resample targetW targetH im).px i j).2.1 ∧
          ((preprocess resample targetW targetH im).px i j).2.1 ≤ 1) ∧
        (0 ≤ ((preprocess resample targetW targetH im).px i j).2.2 ∧
          ((preprocess resample targetW targetH im).px i j).2.2 ≤ 1) := by
  intro resample targetW targetH im hres hw hh
  refine ⟨rfl, rfl, ?_⟩
  intro i j hi hj
  have hdiv : ∀ c : ℕ, c ≤ 255 → 0 ≤ (c : ℚ) / 255 ∧ (c : ℚ) / 255 ≤ 1 := by
    intro c hc
    constructor
    · positivity
    · rw [div_le_one (by norm_num)]
      exact_mod_cast hc
  simp only [preprocess, resizeWithPadding]
  split_ifs with hin
  · obtain ⟨hwid, hhei, hval⟩ := hres im (scaledW targetW targetH im)
      (scaledH targetW targetH im)
    obtain ⟨h1, h2, h3, h4⟩ := hin
    rw [hwid] at h2
    rw [hhei] at h4
    have hrow := hval (i - padY targetW targetH im) (j - padX targetW targetH im)
      (by rw [hhei]; omega) (by rw [hwid]; omega)
    exact ⟨hdiv _ hrow.1, hdiv _ hrow.2.1, hdiv _ hrow.2.2⟩
  · norm_num

/-- A trivial resampler satisfying the PIL contract, used to witness C4. -/
def constResample : PILImage → ℕ → ℕ → PILImage :=
  fun _ nw nh => ⟨nw, nh, fun _ _ => (0, 0, 0)⟩

lemma constResample_spec : ResampleSpec constResample := by
  intro im nw nh
  refine ⟨rfl, rfl, ?_⟩
  intro i j hi hj
  refine ⟨?_, ?_, ?_⟩ <;> norm_num [constResample]

/-- A concrete 2 x 1 test image. -/
def testImage : PILImage := ⟨2, 1, fun _ _ => (255, 0, 0)⟩

/-- Witness for C4: shape conjuncts at the default 224 x 224 target on a
concrete image and resampler. -/
theorem c4_preprocess_shape_and_range_witness :
    (preprocess constResample 224 224 testImage).width = 224 ∧
    (preprocess constResample 224 224 testImage).height = 224 := by
  have h := c4_preprocess_shape_and_range constResample 224 224 testImage
    constResample_spec (by norm_num [testImage]) (by norm_num [testImage])
  exact ⟨h.1, h.2.1⟩

/-! ### Color harmony via k-means (src/thumbnail_analyzer.py) and claim C9

`_calculate_color_harmony` flattens the image to a pixel list, runs
`cv2.kmeans` (Lloyd iterations from randomly drawn initial centers, a
fixed number of attempts, best compactness wins), and scores harmony as
`(1 - std(cluster population fractions)) * 100`.  The clustering
randomness is exactly the draw of initial centers, so it enters as the
explicit list `inits` (one initial center list per attempt); the
bounded iteration count enters as `iters`; the square root inside
`np.std` is a library call and enters as the parameter `sqrtFn` applied
to the variance. -/

abbrev Pixel := ℚ × ℚ × ℚ

/-- Squared euclidean distance between two pixels. -/
def sqDist (p c : Pixel) : ℚ :=
  (p.1 - c.1)^2 + (p.2.1 - c.2.1)^2 + (p.2.2 - c.2.2)^2

/-- Index (first minimal) of the nearest center, scanning the remaining
centers with the running best index and distance. -/
def nearestIdxAux (p : Pixel) : List Pixel → ℕ → ℕ → ℚ → ℕ
  | [], _, best, _ => best
  | c :: cs, i, best, bestD =>
    if sqDist p c < bestD then nearestIdxAux p cs (i + 1) i (sqDist p c)
    else nearestIdxAux p cs (i + 1) best bestD

/-- The cluster label k-means assigns to a pixel given the centers. -/
def nearestIdx (centers : List Pixel) (p : Pixel) : ℕ :=
  match centers with
  | [] => 0
  | c :: cs => nearestIdxAux p cs 1 0 (sqDist p c)

/-- Whether a pixel is assigned to cluster `i`. -/
def assignedTo (centers : List Pixel) (i : ℕ) (p : Pixel) : Bool :=
  nearestIdx centers p == i

def sumFst (l : List Pixel) : ℚ := (l.map (fun p => p.1)).sum

def sumSnd (l : List Pixel) : ℚ := (l.map (fun p => p.2.1)).sum

def sumThd (l : List Pixel) : ℚ := (l.map (fun p => p.2.2)).sum

/-- The Lloyd update of center `i`: the componentwise mean of the pixels
assigned to it (kept unchanged if the cluster is empty). -/
def updateCenter (centers : List Pixel) (data : List Pixel) (i : ℕ)
    (old : Pixel) : Pixel :=
  if (data.filter (assignedTo centers i)).length = 0 then old
  else
    (sumFst (data.filter (assignedTo centers i)) /
        ((data.filter (assignedTo centers i)).length : ℚ),
      sumSnd (data.filter (assignedTo centers i)) /
        ((data.filter (assignedTo centers i)).length : ℚ),
      sumThd (data.filter (assignedTo centers i)) /
        ((data.filter (assignedTo centers i)).length : ℚ))

/-- One Lloyd iteration: assign every pixel to its nearest center, then
move every center to the mean of its cluster. -/
def lloydStep (data : List Pixel) (centers : List Pixel) : List Pixel :=
  (List.range centers.length).map
    (fun i => updateCenter centers data i (centers.getD i (0, 0, 0)))

/-- Lloyd iterations from a given initial center list (the bounded
iteration count of the cv2.kmeans termination criteria). -/
def kmeansIter (data : List Pixel) : ℕ → List Pixel → List Pixel
  | 0, cs => cs
  | n + 1, cs => kmeansIter data n (lloydStep data cs)

/-- The compactness (sum of squared distances to the assigned centers)
cv2.kmeans uses to pick the best of its attempts. -/
def compactness (data : List Pixel) (centers : List Pixel) : ℚ :=
  (data.map (fun p => sqDist p (centers.getD (nearestIdx centers p) (0, 0, 0)))).sum

/-- Select the attempt with the smallest compactness (first on ties). -/
def pickBest (data : List Pixel) : List (List Pixel) → List Pixel → List Pixel
  | [], best => best
  | c :: cs, best =>
    if compactness data c < compactness data best then pickBest data cs c
    else pickBest data cs best

/-- The centers returned by cv2.kmeans: run every attempt from its drawn
initial centers, keep the one with the best compactness. -/
def kmeansBestCenters (iters : ℕ) (inits : List (List Pixel))
    (data : List Pixel) : List Pixel :=
  match inits.map (kmeansIter data iters) with
  | [] => []
  | c :: cs => pickBest data cs c

/-- Cluster population counts (`np.unique(labels, return_counts=True)`
over the labels of the winning attempt, indexed by cluster id). -/
def clusterCounts (centers : List Pixel) (data : List Pixel) : List ℕ :=
  (List.range centers.length).map (fun i => data.countP (assignedTo centers i))

/-- The cluster population fractions (`counts / len(labels)`); clusters
with no members are absent from the output of `np.unique`, hence the
filter. -/
def colorDistribution (centers : List Pixel) (data : List Pixel) : List ℚ :=
  ((clusterCounts centers data).filter (fun c => c != 0)).map
    (fun c => (c : ℚ) / (data.length : ℚ))

def listMean (l : List ℚ) : ℚ := l.sum / (l.length : ℚ)

/-- Population variance as `np.std` squares it (ddof = 0). -/
def listVariance (l : List ℚ) : ℚ :=
  ((l.map (fun x => (x - listMean l)^2)).sum) / (l.length : ℚ)

/-- Embedding of `_calculate_color_harmony`:
`(1 - std(color_distribution)) * 100`, with `std = sqrtFn ∘ variance`. -/
def calculateColorHarmony (sqrtFn : ℚ → ℚ) (iters : ℕ)
    (inits : List (List Pixel)) (data : List Pixel) : ℚ :=
  (1 - sqrtFn (listVariance
    (colorDistribution (kmeansBestCenters iters inits data) data))) * 100

lemma updateCenter_perm {data data' : List Pixel} (h : data.Perm data')
    (centers : List Pixel) (i : ℕ) (old : Pixel) :
    updateCenter centers data i old = updateCenter centers data' i old := by
  have hf : (data.filter (assignedTo centers i)).Perm
      (data'.filter (assignedTo centers i)) := h.filter _
  have hlen := hf.length_eq
  have h1 : sumFst (data.filter (assignedTo centers i)) =
      sumFst (data'.filter (assignedTo centers i)) := (hf.map _).sum_eq
  have h2 : sumSnd (data.filter (assignedTo centers i)) =
      sumSnd (data'.filter (assignedTo centers i)) := (hf.map _).sum_eq
  have h3 : sumThd (data.filter (assignedTo centers i)) =
      sumThd (data'.filter (assignedTo centers i)) := (hf.map _).sum_eq
  unfold updateCenter
  rw [hlen, h1, h2, h3]

lemma lloydStep_perm {data data' : List Pixel} (h : data.Perm data')
    (centers : List Pixel) : lloydStep data centers = lloydStep data' centers := by
  unfold lloydStep
  exact List.map_congr_left (fun i _ => updateCenter_perm h centers i _)

lemma kmeansIter_perm {data data' : List Pixel} (h : data.Perm data')
    (n : ℕ) (centers : List Pixel) :
    kmeansIter data n centers = kmeansIter data' n centers := by
  induction n generalizing centers with
  | zero => rfl
  | succ m ih =>
    show kmeansIter data m (lloydStep data centers) =
      kmeansIter data' m (lloydStep data' centers)
    rw [← lloydStep_perm h centers]
    exact ih (lloydStep data centers)

lemma compactness_perm {data data' : List Pixel} (h : data.Perm data')
    (centers : List Pixel) : compactness data centers = compactness data' centers :=
  (h.map _).sum_eq

lemma pickBest_perm {data data' : List Pixel} (h : data.Perm data')
    (cs : List (List Pixel)) (best : List Pixel) :
    pickBest data cs best = pickBest data' cs best := by
  induction cs generalizing best with
  | nil => rfl
  | cons c rest ih =>
    show (if compactness data c < compactness data best then pickBest data rest c
      else pickBest data rest best) =
      (if compactness data' c < compactness data' best then pickBest data' rest c
      else pickBest data' rest best)
    rw [compactness_perm h c, compactness_perm h best]
    split_ifs with hc
    · exact ih c
    · exact ih best

lemma kmeansBestCenters_perm {data data' : List Pixel} (h : data.Perm data')
    (iters : ℕ) (inits : List (List Pixel)) :
    kmeansBestCenters iters inits data = kmeansBestCenters iters inits data' := by
  unfold kmeansBestCenters
  rw [List.map_congr_left (fun init _ => kmeansIter_perm h iters init)]
  cases inits.map (kmeansIter data' iters) with
  | nil => rfl
  | cons c cs => exact pickBest_perm h cs c

lemma clusterCounts_perm {data data' : List Pixel} (h : data.Perm data')
    (centers : List Pixel) :
    clusterCounts centers data = clusterCounts centers data' := by
  unfold clusterCounts
  exact List.map_congr_left (fun i _ => h.countP_eq _)

lemma colorDistribution_perm {data data' : List Pixel} (h : data.Perm data')
    (centers : List Pixel) :
    colorDistribution centers data = colorDistribution centers data' := by
  unfold colorDistribution
  rw [clusterCounts_perm h centers, h.length_eq]

/-- C9: with the clustering randomness fixed (the same drawn initial
centers for every attempt, the same iteration bound, the same library
square root), the color-harmony score is invariant under any permutation
of the image pixels, because every quantity it is built from (Lloyd
updates, compactness, cluster population counts) depends on the pixel
list only through its multiset. -/
theorem c9_harmony_permutation_invariant :
    ∀ sqrtFn : ℚ → ℚ, ∀ iters : ℕ, ∀ inits : List (List Pixel),
    ∀ data data' : List Pixel, data.Perm data' →
      calculateColorHarmony sqrtFn iters inits data =
        calculateColorHarmony sqrtFn iters inits data' := by
  intro sqrtFn iters inits data data' h
  unfold calculateColorHarmony
  rw [kmeansBestCenters_perm h iters inits, colorDistribution_perm h]

/-- Witness for C9: a two-pixel image and its transposition, one k-means
attempt from one initial center, one Lloyd iteration, identity in place
of the library square root. -/
theorem c9_harmony_permutation_invariant_witness :
    calculateColorHarmony (fun q => q) 1 [[((0 : ℚ), (0 : ℚ), (0 : ℚ))]]
        [((0 : ℚ), (0 : ℚ), (0 : ℚ)), ((1 : ℚ), (1 : ℚ), (1 : ℚ))] =
      calculateColorHarmony (fun q => q) 1 [[((0 : ℚ), (0 : ℚ), (0 : ℚ))]]
        [((1 : ℚ), (1 : ℚ), (1 : ℚ)), ((0 : ℚ), (0 : ℚ), (0 : ℚ))] :=
  c9_harmony_permutation_invariant (fun q => q) 1 [[((0 : ℚ), (0 : ℚ), (0 : ℚ))]]
    [((0 : ℚ), (0 : ℚ), (0 : ℚ)), ((1 : ℚ), (1 : ℚ), (1 : ℚ))]
    [((1 : ℚ), (1 : ℚ), (1 : ℚ)), ((0 : ℚ), (0 : ℚ), (0 : ℚ))]
    (List.Perm.swap ((1 : ℚ), (1 : ℚ), (1 : ℚ)) ((0 : ℚ), (0 : ℚ), (0 : ℚ)) [])

end ThumbScore
